import Mathlib

/-!
# terraform-provider-eksoidc: the `eksoidc_key_document` resource

A shallow embedding of `internal/provider/provider.go`.  The provider code is
glue around the Go standard library (`encoding/pem`, `crypto/x509`,
`crypto/sha256`, `encoding/base64`, `encoding/json`) and `go-jose`.  The
provider's own functions (`CreateKeyDocument`, `keyIDFromPublicKey`,
`DeleteKeyDocument`, `ReadKeyDocument`) are translated statement by statement;
the library calls they make are either parameters collected in `GoLib`, or,
where a property depends on what the library computes (base64url, the RSA
fields of a JWK), small models written from the published format.
-/

namespace EksOidc

/-! ## Data model -/

/-- A byte, as a natural number below 256. -/
abbrev Byte := Nat

/-- The Go type `*rsa.PublicKey` as `x509.ParseCertificate` returns it: the
modulus `N` is a positive `*big.Int` and `E` a positive Go `int`, so both are
naturals and `E` fits in 63 bits. -/
structure RSAPublicKey where
  N : Nat
  E : Nat
  E_lt : E < 2 ^ 63
  deriving DecidableEq

/-- The dynamic type held by the `interface{}` value `cert.PublicKey`. -/
inductive PublicKey where
  | rsa (k : RSAPublicKey)
  | ecdsa (curve : String) (X Y : Nat)
  | ed25519 (key : List Byte)
  | other (goType : String)
  deriving DecidableEq

/-- What the verb `%T` prints for the dynamic type of a public key. -/
def PublicKey.goType : PublicKey → String
  | .rsa _ => "*rsa.PublicKey"
  | .ecdsa _ _ _ => "*ecdsa.PublicKey"
  | .ed25519 _ => "ed25519.PublicKey"
  | .other t => t

/-- The fields of `x509.Certificate` that tell certificates apart, and the
public key, the only field the provider reads. -/
structure Certificate where
  SerialNumber : Nat
  Subject : String
  NotBefore : Int
  NotAfter : Int
  PublicKey : PublicKey
  deriving DecidableEq

/-- The Go type `pem.Block`. -/
structure Block where
  Type_ : String
  Headers : List (String × String)
  Bytes : List Byte
  deriving DecidableEq

/-- The Go type `diag.Severity`. -/
inductive Severity where
  | Error
  | Warning
  deriving DecidableEq

/-- The Go type `diag.Diagnostic`, with the fields the provider fills. -/
structure Diagnostic where
  Severity : Severity
  Summary : String
  deriving DecidableEq

/-- The Go type `diag.Diagnostics`. -/
abbrev Diagnostics := List Diagnostic

/-- The function `diag.FromErr` on a non-nil error with message `msg`. -/
def diag.FromErr (msg : String) : Diagnostics :=
  [{ Severity := Severity.Error, Summary := msg }]

/-- The part of `schema.ResourceData` the resource uses: the required input
`cert_pem`, the resource ID and the computed attribute `document`. -/
structure ResourceData where
  cert_pem : String
  id : String
  document : Option String
  deriving DecidableEq

/-- The method `d.SetId`. -/
def ResourceData.SetId (d : ResourceData) (v : String) : ResourceData :=
  { d with id := v }

/-- The call `d.Set("document", v)`. -/
def ResourceData.SetDocument (d : ResourceData) (v : String) : ResourceData :=
  { d with document := some v }

/-- The Go type `jose.SignatureAlgorithm`, a string type. -/
abbrev SignatureAlgorithm := String

/-- The constant `jose.RS256`. -/
def jose.RS256 : SignatureAlgorithm := "RS256"

/-- The Go type `jose.JSONWebKey`, with the fields the provider fills. -/
structure JSONWebKey where
  Key : PublicKey
  KeyID : String
  Algorithm : String
  Use : String
  deriving DecidableEq

/-- The provider's type `KeyResponse`. -/
structure KeyResponse where
  Keys : List JSONWebKey
  deriving DecidableEq

/-! ## Library models -/

/-- The alphabet of `base64.URLEncoding`. -/
def encodeURL : List Char :=
  "ABCDEFGHIJKLMNOPQRSTUVWXYZabcdefghijklmnopqrstuvwxyz0123456789-_".data

/-- The character of the URL-safe alphabet for a 6-bit value. -/
def encChar (i : Nat) : Char := encodeURL.getD (i % 64) 'A'

/-- Modelled from the spec: `base64.RawURLEncoding.EncodeToString` (package
`encoding/base64` is not under src/), the unpadded URL-safe base64 of RFC 4648
section 5.  Three bytes form a 24-bit group written as four characters; a
final group of one or two bytes is written as two or three characters, with
no padding. -/
def rawURLEncodeChars : List Byte → List Char
  | [] => []
  | [a] =>
    let v := a * 65536
    [encChar (v / 262144), encChar (v / 4096)]
  | [a, b] =>
    let v := a * 65536 + b * 256
    [encChar (v / 262144), encChar (v / 4096), encChar (v / 64)]
  | a :: b :: c :: rest =>
    let v := a * 65536 + b * 256 + c
    encChar (v / 262144) :: encChar (v / 4096) :: encChar (v / 64) :: encChar v ::
      rawURLEncodeChars rest

/-- The string form of `rawURLEncodeChars`. -/
def rawURLEncode (bs : List Byte) : String := String.mk (rawURLEncodeChars bs)

/-- The 6-bit value of a character of the URL-safe alphabet. -/
def decChar (c : Char) : Option Nat :=
  let i := encodeURL.indexOf c
  if i < 64 then some i else none

/-- Modelled from the spec: `base64.RawURLEncoding.DecodeString`, the inverse
of the unpadded URL-safe encoding.  Four characters give three bytes, a final
group of two or three characters gives one or two bytes, and a single
trailing character or a character outside the alphabet is an error. -/
def rawURLDecodeChars : List Char → Option (List Byte)
  | [] => some []
  | [_] => none
  | [c0, c1] => do
    let v0 ← decChar c0
    let v1 ← decChar c1
    let v := v0 * 262144 + v1 * 4096
    pure [v / 65536 % 256]
  | [c0, c1, c2] => do
    let v0 ← decChar c0
    let v1 ← decChar c1
    let v2 ← decChar c2
    let v := v0 * 262144 + v1 * 4096 + v2 * 64
    pure [v / 65536 % 256, v / 256 % 256]
  | c0 :: c1 :: c2 :: c3 :: rest => do
    let v0 ← decChar c0
    let v1 ← decChar c1
    let v2 ← decChar c2
    let v3 ← decChar c3
    let v := v0 * 262144 + v1 * 4096 + v2 * 64 + v3
    let tail ← rawURLDecodeChars rest
    pure (v / 65536 % 256 :: v / 256 % 256 :: v % 256 :: tail)

/-- The string form of `rawURLDecodeChars`. -/
def rawURLDecode (s : String) : Option (List Byte) := rawURLDecodeChars s.data

/-- Little-endian base-256 digits of `n`; `fuel` bounds the number of digits. -/
def bytesLE : Nat → Nat → List Byte
  | 0, _ => []
  | fuel + 1, n => if n = 0 then [] else n % 256 :: bytesLE fuel (n / 256)

/-- Modelled from the spec: the bytes of the modulus that `go-jose` writes to
the member `n` (the method `(*big.Int).Bytes`, not under src/): the big-endian
bytes of a non-negative integer without leading zeros, empty for zero. -/
def bigIntBytes (n : Nat) : List Byte := (bytesLE n n).reverse

/-- The unsigned integer a byte string denotes in big-endian order. -/
def bigEndianNat (bs : List Byte) : Nat := bs.foldl (fun acc b => acc * 256 + b) 0

/-- The function `binary.BigEndian.PutUint64` on a fresh 8-byte slice. -/
def putUint64BE (v : Nat) : List Byte :=
  [v / 2 ^ 56 % 256, v / 2 ^ 48 % 256, v / 2 ^ 40 % 256, v / 2 ^ 32 % 256,
   v / 2 ^ 24 % 256, v / 2 ^ 16 % 256, v / 2 ^ 8 % 256, v % 256]

/-- The call `bytes.TrimLeft(data, "\x00")`. -/
def trimLeftZero (bs : List Byte) : List Byte := bs.dropWhile (fun b => b == 0)

/-- Modelled from the spec: the bytes of the exponent that `go-jose` writes to
the member `e` (its helper `newBufferFromInt` on `uint64(num)`, not under
src/): the eight big-endian bytes of the value without the leading zeros. -/
def newBufferFromInt (num : Nat) : List Byte := trimLeftZero (putUint64BE (num % 2 ^ 64))

/-- The `go-jose` type `rawJSONWebKey`, restricted to the members written for
a public key without certificates; a member left `none` or empty is omitted
from the JSON object. -/
structure rawJSONWebKey where
  Use : String
  Kty : String
  Kid : String
  Crv : String
  Alg : String
  X : Option String
  Y : Option String
  N : Option String
  E : Option String
  deriving DecidableEq

/-- Modelled from the spec: the `go-jose` conversion `fromRsaPublicKey` (the
package is not under src/), following the wire format of the spec: `kty` is
"RSA" and `n`, `e` are the unpadded base64url of the big-endian modulus and
exponent. -/
def fromRsaPublicKey (pub : RSAPublicKey) : rawJSONWebKey :=
  { Use := "", Kty := "RSA", Kid := "", Crv := "", Alg := "",
    X := none, Y := none,
    N := some (rawURLEncode (bigIntBytes pub.N)),
    E := some (rawURLEncode (newBufferFromInt pub.E)) }

/-- The library functions the provider calls and that stay parameters:
`pem.Decode` (its first result, on the bytes of the string),
`x509.ParseCertificate`, `x509.MarshalPKIXPublicKey`, the SHA-256 digest with
its fixed size of 32 bytes, the `go-jose` conversion of a key that is not an
RSA public key, and the indented JSON text `encoding/json` writes for a key
set. -/
structure GoLib where
  pemDecode : String → Option Block
  parseCertificate : List Byte → Except String Certificate
  marshalPKIXPublicKey : PublicKey → Except String (List Byte)
  sha256 : List Byte → List Byte
  sha256_size : ∀ data, (sha256 data).length = 32
  joseOtherKey : PublicKey → Except String rawJSONWebKey
  jsonIndent : List rawJSONWebKey → String

/-- Modelled from the spec: the method `JSONWebKey.MarshalJSON` of `go-jose`
(not under src/): the key material is converted by key type, then the key ID,
algorithm and use are copied into the raw record. -/
def JSONWebKey.MarshalJSON (L : GoLib) (k : JSONWebKey) : Except String rawJSONWebKey :=
  let conv : Except String rawJSONWebKey :=
    match k.Key with
    | .rsa pub => .ok (fromRsaPublicKey pub)
    | key => L.joseOtherKey key
  match conv with
  | .error e => .error e
  | .ok raw => .ok { raw with Kid := k.KeyID, Alg := k.Algorithm, Use := k.Use }

/-- Marshal every key of a list in order, stopping at the first error. -/
def marshalKeys (L : GoLib) : List JSONWebKey → Except String (List rawJSONWebKey)
  | [] => .ok []
  | k :: ks =>
    match JSONWebKey.MarshalJSON L k with
    | .error e => .error e
    | .ok raw =>
      match marshalKeys L ks with
      | .error e => .error e
      | .ok raws => .ok (raw :: raws)

/-- The call `json.MarshalIndent(KeyResponse{Keys: keys}, "", "  ")`: each key
is marshalled by its `MarshalJSON` method and the resulting object
`{"keys": [...]}` is written as indented text. -/
def MarshalIndent (L : GoLib) (r : KeyResponse) : Except String String :=
  match marshalKeys L r.Keys with
  | .error e => .error e
  | .ok raws => .ok (L.jsonIndent raws)

/-! ## The provider -/

/-- The provider function `keyIDFromPublicKey`. -/
def keyIDFromPublicKey (L : GoLib) (publicKey : PublicKey) : Except String String :=
  match L.marshalPKIXPublicKey publicKey with
  | .error err => .error ("failed to serialize public key to DER format: " ++ err)
  | .ok publicKeyDERBytes =>
    let publicKeyDERHash := L.sha256 publicKeyDERBytes
    let keyID := rawURLEncode publicKeyDERHash
    .ok keyID

/-- The second switch of `CreateKeyDocument` on the dynamic type of `pubKey`
(`var alg jose.SignatureAlgorithm; switch pubKey.(type)`): the algorithm tag
for an RSA key, and in the default branch the error of `fmt.Errorf` with the
type printed by `%T`. -/
def selectAlgorithm (pubKey : PublicKey) : Except String SignatureAlgorithm :=
  match pubKey with
  | .rsa _ => .ok jose.RS256
  | _ => .error ("invalid public key type " ++ pubKey.goType ++ ", must be *rsa.PublicKey")

/-- The provider function `CreateKeyDocument`: the resource data after the call
and the diagnostics it returns. -/
def CreateKeyDocument (L : GoLib) (d : ResourceData) : ResourceData × Diagnostics :=
  let content := d.cert_pem
  let diags : Diagnostics := []
  match L.pemDecode content with
  | none => (d, diag.FromErr "Error decoding PEM")
  | some block =>
    match L.parseCertificate block.Bytes with
    | .error err => (d, diag.FromErr ("Error parsing cert content" ++ ": " ++ err))
    | .ok cert =>
      let pubKey := cert.PublicKey
      match pubKey with
      | .rsa _ =>
        match selectAlgorithm pubKey with
        | .error e => (d, diag.FromErr e)
        | .ok alg =>
          match keyIDFromPublicKey L pubKey with
          | .error err => (d, diag.FromErr err)
          | .ok kid =>
            let keys : List JSONWebKey := []
            let keys := keys ++ [{ Key := pubKey, KeyID := kid, Algorithm := alg, Use := "sig" }]
            match MarshalIndent L { Keys := keys } with
            | .error err => (d, diag.FromErr ("Error MarshalIndent" ++ ": " ++ err))
            | .ok json =>
              let d := d.SetId kid
              let d := d.SetDocument json
              (d, diags)
      | _ => (d, diag.FromErr "Public key was not RSA")

/-- The provider function `DeleteKeyDocument`. -/
def DeleteKeyDocument (d : ResourceData) : ResourceData × Diagnostics :=
  let diags : Diagnostics := []
  (d.SetId "", diags)

/-- The provider function `ReadKeyDocument`. -/
def ReadKeyDocument (d : ResourceData) : ResourceData × Diagnostics :=
  let diags : Diagnostics := []
  (d, diags)

/-! ## Vocabulary of the statements -/

/-- The start marker `pem.Decode` searches for, without the trailing blank. -/
def pemBeginMarker : String := "-----BEGIN"

/-- Whether the text `s` contains the text `sub`. -/
def containsText (s sub : String) : Prop := sub.data <:+: s.data

instance (s sub : String) : Decidable (containsText s sub) :=
  inferInstanceAs (Decidable (sub.data <:+: s.data))

/-- The documented behaviour of `pem.Decode` on input without a start marker:
no block is found. -/
def PemNeedsMarker (L : GoLib) : Prop :=
  ∀ s : String, ¬ containsText s pemBeginMarker → L.pemDecode s = none

/-- Whether a public key has dynamic type `*rsa.PublicKey`. -/
def PublicKey.isRSA : PublicKey → Bool
  | .rsa _ => true
  | _ => false

/-- The diagnostics of the PEM decoding error. -/
def errInvalidPEM : Diagnostics := diag.FromErr "Error decoding PEM"

/-- The diagnostics of the unsupported-key-type error. -/
def errUnsupportedKeyType : Diagnostics := diag.FromErr "Public key was not RSA"

/-- The message of the default branch of the algorithm-selection switch. -/
def invalidKeyTypeMessage (T : String) : String :=
  "invalid public key type " ++ T ++ ", must be *rsa.PublicKey"

/-- The characters of the URL-safe base64 alphabet. -/
def isURLSafeChar (c : Char) : Bool :=
  (decide ('A' ≤ c) && decide (c ≤ 'Z')) || (decide ('a' ≤ c) && decide (c ≤ 'z')) ||
    (decide ('0' ≤ c) && decide (c ≤ '9')) || c == '-' || c == '_'

/-- The key set with the single entry for the RSA key `k` under the ID `kid`. -/
def singleKeySet (k : RSAPublicKey) (kid : String) : KeyResponse :=
  { Keys := [{ Key := .rsa k, KeyID := kid, Algorithm := "RS256", Use := "sig" }] }

/-- The same library with another certificate parser. -/
def GoLib.withParser (L : GoLib) (p : List Byte → Except String Certificate) : GoLib :=
  { L with parseCertificate := p }

/-! ## A small library instance

A concrete `GoLib` on which the statements below are instantiated: it knows
five PEM texts and four certificates, two of which embed the same RSA key;
the last text is a self-signed certificate with an Ed25519 key as OpenSSL
writes it, with its DER bytes and its fields. -/

/-- An RSA public key with modulus 3233 and exponent 65537. -/
def sampleKey : RSAPublicKey := { N := 3233, E := 65537, E_lt := by decide }

/-- A certificate embedding `sampleKey`. -/
def sampleCertA : Certificate :=
  { SerialNumber := 1, Subject := "CN=a", NotBefore := 0, NotAfter := 100,
    PublicKey := .rsa sampleKey }

/-- Another certificate embedding `sampleKey`. -/
def sampleCertB : Certificate :=
  { SerialNumber := 77, Subject := "CN=b", NotBefore := 50, NotAfter := 900,
    PublicKey := .rsa sampleKey }

/-- A certificate embedding an Ed25519 key. -/
def sampleCertEd : Certificate :=
  { SerialNumber := 2, Subject := "CN=ed", NotBefore := 0, NotAfter := 100,
    PublicKey := .ed25519 [7, 7, 7] }

/-- A PEM text with label CERTIFICATE and payload bytes 1, 2, 3. -/
def samplePemA : String := "-----BEGIN CERTIFICATE-----\nAQID\n-----END CERTIFICATE-----\n"

/-- The payload of `samplePemA` under the label PUBLIC KEY. -/
def samplePemA2 : String := "-----BEGIN PUBLIC KEY-----\nAQID\n-----END PUBLIC KEY-----\n"

/-- A PEM text with payload bytes 1, 2, 4. -/
def samplePemB : String := "-----BEGIN CERTIFICATE-----\nAQIE\n-----END CERTIFICATE-----\n"

/-- A PEM text with payload bytes 4, 5, 6. -/
def samplePemEd : String := "-----BEGIN CERTIFICATE-----\nBAUG\n-----END CERTIFICATE-----\n"

/-- A self-signed X.509 certificate with an Ed25519 key, in PEM. -/
def ed25519CertPem : String :=
    "-----BEGIN CERTIFICATE-----\n" ++
    "MIIBSDCB+6ADAgECAhRdJtbWYq373KjiHS1FWk3GMoVsfTAFBgMrZXAwGjEYMBYG\n" ++
    "A1UEAwwPZWQyNTUxOS5leGFtcGxlMB4XDTI2MTEwNDIyNDU1N1oXDTM2MTEwMTIy\n" ++
    "NDU1N1owGjEYMBYGA1UEAwwPZWQyNTUxOS5leGFtcGxlMCowBQYDK2VwAyEA3otZ\n" ++
    "I9KsFGyFaeQ0KqyEt/laW3CEqyIvPtEoy3ochTSjUzBRMB0GA1UdDgQWBBSMcBXN\n" ++
    "Bd4agNZvjiNAPoohwJRmEDAfBgNVHSMEGDAWgBSMcBXNBd4agNZvjiNAPoohwJRm\n" ++
    "EDAPBgNVHRMBAf8EBTADAQH/MAUGAytlcANBAIsLRuaEzYkRIzQ14KUH+pXA6dvi\n" ++
    "uKqvTHu4fe9Visybe0zekWzLrc/CvpstSnyBJNYZojW9UdhGak/r5K8oTwg=\n" ++
    "-----END CERTIFICATE-----\n"

/-- The DER bytes of `ed25519CertPem`, the base64 payload decoded. -/
def ed25519CertDER : List Byte :=
  [48, 130, 1, 72, 48, 129, 251, 160, 3, 2, 1, 2, 2, 20, 93, 38, 214, 214, 98, 173, 251, 220,
    168, 226, 29, 45, 69, 90, 77, 198, 50, 133, 108, 125, 48, 5, 6, 3, 43, 101, 112, 48, 26, 49,
    24, 48, 22, 6, 3, 85, 4, 3, 12, 15, 101, 100, 50, 53, 53, 49, 57, 46, 101, 120, 97, 109,
    112, 108, 101, 48, 30, 23, 13, 50, 54, 49, 49, 48, 52, 50, 50, 52, 53, 53, 55, 90, 23, 13,
    51, 54, 49, 49, 48, 49, 50, 50, 52, 53, 53, 55, 90, 48, 26, 49, 24, 48, 22, 6, 3, 85, 4, 3,
    12, 15, 101, 100, 50, 53, 53, 49, 57, 46, 101, 120, 97, 109, 112, 108, 101, 48, 42, 48, 5,
    6, 3, 43, 101, 112, 3, 33, 0, 222, 139, 89, 35, 210, 172, 20, 108, 133, 105, 228, 52, 42,
    172, 132, 183, 249, 90, 91, 112, 132, 171, 34, 47, 62, 209, 40, 203, 122, 28, 133, 52, 163,
    83, 48, 81, 48, 29, 6, 3, 85, 29, 14, 4, 22, 4, 20, 140, 112, 21, 205, 5, 222, 26, 128, 214,
    111, 142, 35, 64, 62, 138, 33, 192, 148, 102, 16, 48, 31, 6, 3, 85, 29, 35, 4, 24, 48, 22,
    128, 20, 140, 112, 21, 205, 5, 222, 26, 128, 214, 111, 142, 35, 64, 62, 138, 33, 192, 148,
    102, 16, 48, 15, 6, 3, 85, 29, 19, 1, 1, 255, 4, 5, 48, 3, 1, 1, 255, 48, 5, 6, 3, 43, 101,
    112, 3, 65, 0, 139, 11, 70, 230, 132, 205, 137, 17, 35, 52, 53, 224, 165, 7, 250, 149, 192,
    233, 219, 226, 184, 170, 175, 76, 123, 184, 125, 239, 85, 138, 204, 155, 123, 76, 222, 145,
    108, 203, 173, 207, 194, 190, 155, 45, 74, 124, 129, 36, 214, 25, 162, 53, 189, 81, 216, 70,
    106, 79, 235, 228, 175, 40, 79, 8]

/-- The certificate `ed25519CertDER` encodes: serial number, subject, validity
in Unix seconds, and the 32 bytes of its Ed25519 public key. -/
def ed25519Cert : Certificate :=
  { SerialNumber := 531802284984944876517395683706919666497928653949,
    Subject := "CN=ed25519.example", NotBefore := 1793832357, NotAfter := 2109192357,
    PublicKey := .ed25519 [222, 139, 89, 35, 210, 172, 20, 108, 133, 105, 228, 52, 42, 172,
      132, 183, 249, 90, 91, 112, 132, 171, 34, 47, 62, 209, 40, 203, 122, 28, 133, 52] }

/-- The PEM decoder of the sample library. -/
def samplePemDecode (s : String) : Option Block :=
  if s = samplePemA then some { Type_ := "CERTIFICATE", Headers := [], Bytes := [1, 2, 3] }
  else if s = samplePemA2 then some { Type_ := "PUBLIC KEY", Headers := [], Bytes := [1, 2, 3] }
  else if s = samplePemB then some { Type_ := "CERTIFICATE", Headers := [], Bytes := [1, 2, 4] }
  else if s = samplePemEd then some { Type_ := "CERTIFICATE", Headers := [], Bytes := [4, 5, 6] }
  else if s = ed25519CertPem then
    some { Type_ := "CERTIFICATE", Headers := [], Bytes := ed25519CertDER }
  else none

/-- The certificate parser of the sample library. -/
def sampleParse (der : List Byte) : Except String Certificate :=
  if der = [1, 2, 3] then .ok sampleCertA
  else if der = [1, 2, 4] then .ok sampleCertB
  else if der = [4, 5, 6] then .ok sampleCertEd
  else if der = ed25519CertDER then .ok ed25519Cert
  else .error "x509: malformed certificate"

/-- The key encoder of the sample library: modulus and exponent bytes for an
RSA key, an error for any other key. -/
def sampleMarshalPKIX : PublicKey → Except String (List Byte)
  | .rsa k => .ok (48 :: (bigIntBytes k.N ++ newBufferFromInt k.E))
  | key => .error ("x509: unsupported public key type: " ++ key.goType)

/-- The digest of the sample library: 32 bytes depending on the byte sum. -/
def sampleDigest (data : List Byte) : List Byte :=
  (List.range 32).map (fun i => (data.sum + i) % 256)

/-- One member of a JSON object, omitted when empty. -/
def jsonMember (name value : String) : List String :=
  if value = "" then [] else ["\"" ++ name ++ "\": \"" ++ value ++ "\""]

/-- The members of one key, in the order of the `go-jose` raw record. -/
def jsonKeyMembers (k : rawJSONWebKey) : List String :=
  jsonMember "use" k.Use ++ jsonMember "kty" k.Kty ++ jsonMember "kid" k.Kid ++
    jsonMember "crv" k.Crv ++ jsonMember "alg" k.Alg ++
    (k.X.toList.map fun v => "\"x\": \"" ++ v ++ "\"") ++
    (k.Y.toList.map fun v => "\"y\": \"" ++ v ++ "\"") ++
    (k.N.toList.map fun v => "\"n\": \"" ++ v ++ "\"") ++
    (k.E.toList.map fun v => "\"e\": \"" ++ v ++ "\"")

/-- Join texts with a separator. -/
def joinWith (sep : String) : List String → String
  | [] => ""
  | [x] => x
  | x :: y :: rest => x ++ sep ++ joinWith sep (y :: rest)

/-- The JSON text of the sample library, indented by two blanks. -/
def sampleJsonIndent (keys : List rawJSONWebKey) : String :=
  let body := keys.map fun k =>
    "    \x7b\n      " ++ joinWith ",\n      " (jsonKeyMembers k) ++ "\n    \x7d"
  "\x7b\n  \"keys\": [\n" ++ joinWith ",\n" body ++ "\n  ]\n\x7d"

/-- The sample library. -/
def sampleLib : GoLib :=
  { pemDecode := samplePemDecode
    parseCertificate := sampleParse
    marshalPKIXPublicKey := sampleMarshalPKIX
    sha256 := sampleDigest
    sha256_size := fun _ => by simp [sampleDigest]
    joseOtherKey := fun key => .error ("square/go-jose: unknown key type " ++ key.goType)
    jsonIndent := sampleJsonIndent }

/-- Resource data before creation, with the given input. -/
def freshData (pem : String) : ResourceData :=
  { cert_pem := pem, id := "", document := none }

/-! ## How a call of `CreateKeyDocument` ends -/

theorem create_of_decode_none (L : GoLib) (d : ResourceData)
    (h : L.pemDecode d.cert_pem = none) :
    CreateKeyDocument L d = (d, errInvalidPEM) := by
  simp [CreateKeyDocument, h, errInvalidPEM]

theorem create_of_parse_error (L : GoLib) (d : ResourceData) (b : Block) (e : String)
    (hb : L.pemDecode d.cert_pem = some b) (hc : L.parseCertificate b.Bytes = .error e) :
    CreateKeyDocument L d = (d, diag.FromErr ("Error parsing cert content: " ++ e)) := by
  simp [CreateKeyDocument, hb, hc]

theorem create_of_not_rsa (L : GoLib) (d : ResourceData) (b : Block) (c : Certificate)
    (hb : L.pemDecode d.cert_pem = some b) (hc : L.parseCertificate b.Bytes = .ok c)
    (hk : c.PublicKey.isRSA = false) :
    CreateKeyDocument L d = (d, errUnsupportedKeyType) := by
  unfold CreateKeyDocument
  simp only [hb, hc]
  cases hp : c.PublicKey with
  | rsa k => simp [hp, PublicKey.isRSA] at hk
  | ecdsa _ _ _ => simp [errUnsupportedKeyType]
  | ed25519 _ => simp [errUnsupportedKeyType]
  | other _ => simp [errUnsupportedKeyType]

theorem create_of_rsa (L : GoLib) (d : ResourceData) (b : Block) (c : Certificate)
    (k : RSAPublicKey)
    (hb : L.pemDecode d.cert_pem = some b) (hc : L.parseCertificate b.Bytes = .ok c)
    (hk : c.PublicKey = .rsa k) :
    CreateKeyDocument L d =
      match keyIDFromPublicKey L (.rsa k) with
      | .error e => (d, diag.FromErr e)
      | .ok kid =>
        match MarshalIndent L (singleKeySet k kid) with
        | .error e => (d, diag.FromErr ("Error MarshalIndent: " ++ e))
        | .ok json => ({ cert_pem := d.cert_pem, id := kid, document := some json }, []) := by
  unfold CreateKeyDocument
  simp only [hb, hc, hk]
  cases keyIDFromPublicKey L (.rsa k) with
  | error e => simp only [selectAlgorithm]
  | ok kid =>
    simp only [selectAlgorithm, List.nil_append, jose.RS256, singleKeySet]
    cases MarshalIndent L
        { Keys := [{ Key := .rsa k, KeyID := kid, Algorithm := "RS256", Use := "sig" }] } with
    | error e => rfl
    | ok json => rfl

theorem keyID_of_marshal_ok (L : GoLib) (key : PublicKey) (der : List Byte)
    (h : L.marshalPKIXPublicKey key = .ok der) :
    keyIDFromPublicKey L key = .ok (rawURLEncode (L.sha256 der)) := by
  simp [keyIDFromPublicKey, h]

theorem keyID_of_marshal_error (L : GoLib) (key : PublicKey) (e : String)
    (h : L.marshalPKIXPublicKey key = .error e) :
    keyIDFromPublicKey L key =
      .error ("failed to serialize public key to DER format: " ++ e) := by
  simp [keyIDFromPublicKey, h]

/-- Every call ends in one of six ways: five errors that leave the resource
data alone, or success with the ID and the document written. -/
theorem create_outcome (L : GoLib) (d : ResourceData) :
    (L.pemDecode d.cert_pem = none ∧ CreateKeyDocument L d = (d, errInvalidPEM)) ∨
    (∃ b e, L.pemDecode d.cert_pem = some b ∧ L.parseCertificate b.Bytes = .error e ∧
      CreateKeyDocument L d = (d, diag.FromErr ("Error parsing cert content: " ++ e))) ∨
    (∃ b c, L.pemDecode d.cert_pem = some b ∧ L.parseCertificate b.Bytes = .ok c ∧
      c.PublicKey.isRSA = false ∧ CreateKeyDocument L d = (d, errUnsupportedKeyType)) ∨
    (∃ b c k e, L.pemDecode d.cert_pem = some b ∧ L.parseCertificate b.Bytes = .ok c ∧
      c.PublicKey = .rsa k ∧ L.marshalPKIXPublicKey (.rsa k) = .error e ∧
      CreateKeyDocument L d =
        (d, diag.FromErr ("failed to serialize public key to DER format: " ++ e))) ∨
    (∃ b c k der e, L.pemDecode d.cert_pem = some b ∧ L.parseCertificate b.Bytes = .ok c ∧
      c.PublicKey = .rsa k ∧ L.marshalPKIXPublicKey (.rsa k) = .ok der ∧
      MarshalIndent L (singleKeySet k (rawURLEncode (L.sha256 der))) = .error e ∧
      CreateKeyDocument L d = (d, diag.FromErr ("Error MarshalIndent: " ++ e))) ∨
    (∃ b c k der json, L.pemDecode d.cert_pem = some b ∧
      L.parseCertificate b.Bytes = .ok c ∧
      c.PublicKey = .rsa k ∧ L.marshalPKIXPublicKey (.rsa k) = .ok der ∧
      MarshalIndent L (singleKeySet k (rawURLEncode (L.sha256 der))) = .ok json ∧
      CreateKeyDocument L d =
        ({ cert_pem := d.cert_pem, id := rawURLEncode (L.sha256 der), document := some json },
          [])) := by
  cases hb : L.pemDecode d.cert_pem with
  | none => exact Or.inl ⟨rfl, create_of_decode_none L d hb⟩
  | some b =>
    cases hc : L.parseCertificate b.Bytes with
    | error e => exact Or.inr (Or.inl ⟨b, e, rfl, hc, create_of_parse_error L d b e hb hc⟩)
    | ok c =>
      cases hr : c.PublicKey.isRSA with
      | false =>
        exact Or.inr (Or.inr (Or.inl ⟨b, c, rfl, hc, hr, create_of_not_rsa L d b c hb hc hr⟩))
      | true =>
        obtain ⟨k, hk⟩ : ∃ k, c.PublicKey = .rsa k := by
          cases hp : c.PublicKey with
          | rsa k => exact ⟨k, rfl⟩
          | ecdsa _ _ _ => simp [hp, PublicKey.isRSA] at hr
          | ed25519 _ => simp [hp, PublicKey.isRSA] at hr
          | other _ => simp [hp, PublicKey.isRSA] at hr
        have hcr := create_of_rsa L d b c k hb hc hk
        cases hm : L.marshalPKIXPublicKey (.rsa k) with
        | error e =>
          rw [keyID_of_marshal_error L _ e hm] at hcr
          exact Or.inr (Or.inr (Or.inr (Or.inl ⟨b, c, k, e, rfl, hc, hk, hm, hcr⟩)))
        | ok der =>
          rw [keyID_of_marshal_ok L _ der hm] at hcr
          cases hj : MarshalIndent L (singleKeySet k (rawURLEncode (L.sha256 der))) with
          | error e =>
            simp only [hj] at hcr
            exact Or.inr (Or.inr (Or.inr (Or.inr (Or.inl
              ⟨b, c, k, der, e, rfl, hc, hk, hm, hj, hcr⟩))))
          | ok json =>
            simp only [hj] at hcr
            exact Or.inr (Or.inr (Or.inr (Or.inr (Or.inr
              ⟨b, c, k, der, json, rfl, hc, hk, hm, hj, hcr⟩))))

/-- A call that returns no diagnostics went through every step. -/
theorem create_success (L : GoLib) (d : ResourceData)
    (h : (CreateKeyDocument L d).2 = []) :
    ∃ b c k der json, L.pemDecode d.cert_pem = some b ∧
      L.parseCertificate b.Bytes = .ok c ∧
      c.PublicKey = .rsa k ∧ L.marshalPKIXPublicKey (.rsa k) = .ok der ∧
      MarshalIndent L (singleKeySet k (rawURLEncode (L.sha256 der))) = .ok json ∧
      CreateKeyDocument L d =
        ({ cert_pem := d.cert_pem, id := rawURLEncode (L.sha256 der), document := some json },
          []) := by
  rcases create_outcome L d with ⟨_, hr⟩ | ⟨_, _, _, _, hr⟩ | ⟨_, _, _, _, _, hr⟩ |
    ⟨_, _, _, _, _, _, _, _, hr⟩ | ⟨_, _, _, _, _, _, _, _, _, _, hr⟩ | hok
  · simp [hr, errInvalidPEM, diag.FromErr] at h
  · simp [hr, diag.FromErr] at h
  · simp [hr, errUnsupportedKeyType, diag.FromErr] at h
  · simp [hr, diag.FromErr] at h
  · simp [hr, diag.FromErr] at h
  · exact hok

/-! ## The resource ID -/

/-- C1: when `CreateKeyDocument` succeeds on a certificate with RSA public key
`k`, the resource ID it sets is `keyIDFromPublicKey k`, the unpadded URL-safe
base64 of the SHA-256 digest of the PKIX DER encoding of `k`; any other
successful call on a certificate embedding the same key, whatever its subject,
validity or serial number, sets the same ID. -/
theorem create_id_is_key_hash (L : GoLib) (d : ResourceData) (b : Block) (c : Certificate)
    (k : RSAPublicKey)
    (hb : L.pemDecode d.cert_pem = some b) (hc : L.parseCertificate b.Bytes = .ok c)
    (hk : c.PublicKey = .rsa k) (hok : (CreateKeyDocument L d).2 = []) :
    (∃ der, L.marshalPKIXPublicKey (.rsa k) = .ok der ∧
      (CreateKeyDocument L d).1.id = rawURLEncode (L.sha256 der)) ∧
    keyIDFromPublicKey L (.rsa k) = .ok (CreateKeyDocument L d).1.id ∧
    (∀ d2 b2 c2, L.pemDecode d2.cert_pem = some b2 → L.parseCertificate b2.Bytes = .ok c2 →
      c2.PublicKey = .rsa k → (CreateKeyDocument L d2).2 = [] →
      (CreateKeyDocument L d2).1.id = (CreateKeyDocument L d).1.id) := by
  have key : ∀ d1 b1 c1, L.pemDecode d1.cert_pem = some b1 →
      L.parseCertificate b1.Bytes = .ok c1 → c1.PublicKey = .rsa k →
      (CreateKeyDocument L d1).2 = [] →
      ∃ der, L.marshalPKIXPublicKey (.rsa k) = .ok der ∧
        (CreateKeyDocument L d1).1.id = rawURLEncode (L.sha256 der) := by
    intro d1 b1 c1 hb1 hc1 hk1 hok1
    obtain ⟨b', c', k', der, json, hb', hc', hk', hm, _, hr⟩ := create_success L d1 hok1
    rw [hb1] at hb'
    cases hb'
    rw [hc1] at hc'
    cases hc'
    rw [hk1] at hk'
    cases hk'
    exact ⟨der, hm, by rw [hr]⟩
  obtain ⟨der, hm, hid⟩ := key d b c hb hc hk hok
  refine ⟨⟨der, hm, hid⟩, ?_, ?_⟩
  · rw [hid]
    exact keyID_of_marshal_ok L _ der hm
  · intro d2 b2 c2 hb2 hc2 hk2 hok2
    obtain ⟨der2, hm2, hid2⟩ := key d2 b2 c2 hb2 hc2 hk2 hok2
    rw [hm] at hm2
    cases hm2
    rw [hid, hid2]

theorem create_id_is_key_hash_witness :
    sampleCertA ≠ sampleCertB ∧
    (CreateKeyDocument sampleLib (freshData samplePemB)).1.id =
      (CreateKeyDocument sampleLib (freshData samplePemA)).1.id :=
  ⟨by decide,
   (create_id_is_key_hash sampleLib (freshData samplePemA)
      { Type_ := "CERTIFICATE", Headers := [], Bytes := [1, 2, 3] } sampleCertA sampleKey
      (by decide) rfl (by decide) (by decide)).2.2
      (freshData samplePemB) { Type_ := "CERTIFICATE", Headers := [], Bytes := [1, 2, 4] }
      sampleCertB (by decide) rfl (by decide) (by decide)⟩

/-! ## The serialised key set -/

/-- C2: when `CreateKeyDocument` succeeds, `document` is the serialisation of a
key set with exactly one entry; the entry carries the RSA public key of the
certificate, algorithm "RS256", use "sig", and as key ID the resource ID set
by the same call. -/
theorem create_document_single_key (L : GoLib) (d : ResourceData)
    (hok : (CreateKeyDocument L d).2 = []) :
    ∃ b c k entry json, L.pemDecode d.cert_pem = some b ∧
      L.parseCertificate b.Bytes = .ok c ∧ c.PublicKey = .rsa k ∧
      MarshalIndent L { Keys := [entry] } = .ok json ∧
      (CreateKeyDocument L d).1.document = some json ∧
      entry.Key = c.PublicKey ∧ entry.Algorithm = "RS256" ∧ entry.Use = "sig" ∧
      entry.KeyID = (CreateKeyDocument L d).1.id := by
  obtain ⟨b, c, k, der, json, hb, hc, hk, _, hj, hr⟩ := create_success L d hok
  refine ⟨b, c, k, JSONWebKey.mk (.rsa k) (rawURLEncode (L.sha256 der)) "RS256" "sig",
    json, hb, hc, hk, hj, ?_, ?_, rfl, rfl, ?_⟩
  · rw [hr]
  · rw [hk]
  · rw [hr]

theorem create_document_single_key_witness :
    (CreateKeyDocument sampleLib (freshData samplePemA)).2 = [] ∧
    ∃ b c k entry json, sampleLib.pemDecode (freshData samplePemA).cert_pem = some b ∧
      sampleLib.parseCertificate b.Bytes = .ok c ∧ c.PublicKey = .rsa k ∧
      MarshalIndent sampleLib { Keys := [entry] } = .ok json ∧
      (CreateKeyDocument sampleLib (freshData samplePemA)).1.document = some json ∧
      entry.Key = c.PublicKey ∧ entry.Algorithm = "RS256" ∧ entry.Use = "sig" ∧
      entry.KeyID = (CreateKeyDocument sampleLib (freshData samplePemA)).1.id :=
  ⟨by decide, create_document_single_key sampleLib (freshData samplePemA) (by decide)⟩

/-! ## The key-type gate -/

/-- C3: when the first PEM block parses as a certificate, `CreateKeyDocument`
returns the unsupported-key-type error exactly when the public key of the
certificate is not an RSA key; a certificate with an ECDSA or Ed25519 key gets
that error, the call is no success and the resource data are left alone. -/
theorem create_unsupported_iff_not_rsa (L : GoLib) (d : ResourceData) (b : Block)
    (c : Certificate)
    (hb : L.pemDecode d.cert_pem = some b) (hc : L.parseCertificate b.Bytes = .ok c) :
    ((CreateKeyDocument L d).2 = errUnsupportedKeyType ↔ c.PublicKey.isRSA = false) ∧
    (∀ curve X Y, c.PublicKey = .ecdsa curve X Y →
      CreateKeyDocument L d = (d, errUnsupportedKeyType) ∧ (CreateKeyDocument L d).2 ≠ []) ∧
    (∀ key, c.PublicKey = .ed25519 key →
      CreateKeyDocument L d = (d, errUnsupportedKeyType) ∧ (CreateKeyDocument L d).2 ≠ []) := by
  have hne : errUnsupportedKeyType ≠ [] := by simp [errUnsupportedKeyType, diag.FromErr]
  refine ⟨⟨?_, fun hk => by rw [create_of_not_rsa L d b c hb hc hk]⟩, ?_, ?_⟩
  · intro h
    cases hr : c.PublicKey.isRSA with
    | false => rfl
    | true =>
      exfalso
      rcases create_outcome L d with ⟨hn, _⟩ | ⟨b', e, hb', hc', _⟩ |
        ⟨b', c', hb', hc', hk', _⟩ | ⟨_, _, _, e, _, _, _, _, hres⟩ |
        ⟨_, _, _, _, e, _, _, _, _, _, hres⟩ | ⟨_, _, _, _, _, _, _, _, _, _, hres⟩
      · rw [hb] at hn
        cases hn
      · rw [hb] at hb'
        cases hb'
        rw [hc] at hc'
        cases hc'
      · rw [hb] at hb'
        cases hb'
        rw [hc] at hc'
        cases hc'
        rw [hr] at hk'
        cases hk'
      · rw [hres] at h
        have h2 := congrArg (fun l => l.map fun x => x.Summary.data) h
        simp [errUnsupportedKeyType, diag.FromErr, String.data_append] at h2
      · rw [hres] at h
        have h2 := congrArg (fun l => l.map fun x => x.Summary.data) h
        simp [errUnsupportedKeyType, diag.FromErr, String.data_append] at h2
      · rw [hres] at h
        exact hne h.symm
  · intro curve X Y hk
    have hres := create_of_not_rsa L d b c hb hc (by rw [hk]; rfl)
    exact ⟨hres, by rw [hres]; exact hne⟩
  · intro key hk
    have hres := create_of_not_rsa L d b c hb hc (by rw [hk]; rfl)
    exact ⟨hres, by rw [hres]; exact hne⟩

theorem create_unsupported_iff_not_rsa_witness :
    sampleLib.pemDecode (freshData samplePemEd).cert_pem =
      some { Type_ := "CERTIFICATE", Headers := [], Bytes := [4, 5, 6] } ∧
    sampleLib.parseCertificate [4, 5, 6] = .ok sampleCertEd ∧
    CreateKeyDocument sampleLib (freshData samplePemEd) =
      (freshData samplePemEd, errUnsupportedKeyType) :=
  ⟨by decide, rfl,
   ((create_unsupported_iff_not_rsa sampleLib (freshData samplePemEd)
      { Type_ := "CERTIFICATE", Headers := [], Bytes := [4, 5, 6] } sampleCertEd
      (by decide) rfl).2.2 [7, 7, 7] (by decide)).1⟩

/-! ## The message of the key-type error -/

/-- C4, which the code misses: on a certificate whose public key is an Ed25519
key the call returns the single diagnostic "Public key was not RSA", and this
message does not contain the type `ed25519.PublicKey` of the key; the message
of the second switch, which names the type with `%T`, is the one that would
contain it, and it is not returned. -/
theorem create_ed25519_message_omits_type (L : GoLib) (d : ResourceData) (b : Block)
    (c : Certificate) (key : List Byte)
    (hb : L.pemDecode d.cert_pem = some b) (hc : L.parseCertificate b.Bytes = .ok c)
    (hk : c.PublicKey = .ed25519 key) :
    (CreateKeyDocument L d).2 =
      [{ Severity := Severity.Error, Summary := "Public key was not RSA" }] ∧
    c.PublicKey.goType = "ed25519.PublicKey" ∧
    (∀ dg ∈ (CreateKeyDocument L d).2, ¬ containsText dg.Summary c.PublicKey.goType) ∧
    selectAlgorithm c.PublicKey =
      .error "invalid public key type ed25519.PublicKey, must be *rsa.PublicKey" ∧
    containsText "invalid public key type ed25519.PublicKey, must be *rsa.PublicKey"
      c.PublicKey.goType := by
  have hres := create_of_not_rsa L d b c hb hc (by rw [hk]; rfl)
  have hin : containsText "invalid public key type ed25519.PublicKey, must be *rsa.PublicKey"
      "ed25519.PublicKey" := by decide
  have hout : ¬ containsText "Public key was not RSA" "ed25519.PublicKey" := by decide
  rw [hres, hk]
  refine ⟨rfl, rfl, ?_, rfl, hin⟩
  intro dg hdg
  simp only [errUnsupportedKeyType, diag.FromErr, List.mem_singleton] at hdg
  rw [hdg]
  exact hout

set_option maxRecDepth 100000 in
theorem create_ed25519_message_omits_type_witness :
    sampleLib.pemDecode (freshData ed25519CertPem).cert_pem =
      some { Type_ := "CERTIFICATE", Headers := [], Bytes := ed25519CertDER } ∧
    sampleLib.parseCertificate ed25519CertDER = .ok ed25519Cert ∧
    (CreateKeyDocument sampleLib (freshData ed25519CertPem)).2 =
      [{ Severity := Severity.Error, Summary := "Public key was not RSA" }] ∧
    ∀ dg ∈ (CreateKeyDocument sampleLib (freshData ed25519CertPem)).2,
      ¬ containsText dg.Summary "ed25519.PublicKey" :=
  ⟨by decide, rfl,
   (create_ed25519_message_omits_type sampleLib (freshData ed25519CertPem)
      { Type_ := "CERTIFICATE", Headers := [], Bytes := ed25519CertDER } ed25519Cert _
      (by decide) rfl rfl).1,
   (create_ed25519_message_omits_type sampleLib (freshData ed25519CertPem)
      { Type_ := "CERTIFICATE", Headers := [], Bytes := ed25519CertDER } ed25519Cert _
      (by decide) rfl rfl).2.2.1⟩

/-! ## PEM decoding -/

/-- C5: `CreateKeyDocument` returns the "Error decoding PEM" error exactly when
`pem.Decode` finds no block in `cert_pem`; as `pem.Decode` finds no block in a
text without a start marker, the call returns that error for the empty string
and for every text without "-----BEGIN"; and when no block is found the result
does not depend on the certificate parser, which is not called. -/
theorem create_invalid_pem_iff (L : GoLib) (d : ResourceData) :
    ((CreateKeyDocument L d).2 = errInvalidPEM ↔ L.pemDecode d.cert_pem = none) ∧
    (PemNeedsMarker L →
      (d.cert_pem = "" → CreateKeyDocument L d = (d, errInvalidPEM)) ∧
      (¬ containsText d.cert_pem "-----BEGIN" → CreateKeyDocument L d = (d, errInvalidPEM))) ∧
    (L.pemDecode d.cert_pem = none →
      ∀ p, CreateKeyDocument (L.withParser p) d = CreateKeyDocument L d) := by
  refine ⟨⟨?_, fun h => by rw [create_of_decode_none L d h]⟩, fun hpem => ⟨?_, ?_⟩, ?_⟩
  · intro h
    rcases create_outcome L d with ⟨hn, _⟩ | ⟨_, e, _, _, hres⟩ | ⟨_, _, _, _, _, hres⟩ |
      ⟨_, _, _, e, _, _, _, _, hres⟩ | ⟨_, _, _, _, e, _, _, _, _, _, hres⟩ |
      ⟨_, _, _, _, _, _, _, _, _, _, hres⟩
    · exact hn
    all_goals
      exfalso
      rw [hres] at h
      have h2 := congrArg (fun l => l.map fun x => x.Summary.data) h
      simp [errInvalidPEM, errUnsupportedKeyType, diag.FromErr, String.data_append] at h2
  · intro he
    apply create_of_decode_none
    apply hpem
    rw [he]
    decide
  · intro hno
    exact create_of_decode_none L d (hpem _ hno)
  · intro hn p
    rw [create_of_decode_none L d hn]
    exact create_of_decode_none (L.withParser p) d hn

theorem sampleLib_pem_needs_marker : PemNeedsMarker sampleLib := by
  intro s hs
  show samplePemDecode s = none
  unfold samplePemDecode
  have h1 : s ≠ samplePemA := by
    intro h
    exact hs (by rw [h]; decide)
  have h2 : s ≠ samplePemA2 := by
    intro h
    exact hs (by rw [h]; decide)
  have h3 : s ≠ samplePemB := by
    intro h
    exact hs (by rw [h]; decide)
  have h4 : s ≠ samplePemEd := by
    intro h
    exact hs (by rw [h]; decide)
  have h5 : s ≠ ed25519CertPem := by
    intro h
    exact hs (by rw [h]; decide)
  simp [h1, h2, h3, h4, h5]

theorem create_invalid_pem_iff_witness :
    PemNeedsMarker sampleLib ∧
    CreateKeyDocument sampleLib (freshData "") = (freshData "", errInvalidPEM) ∧
    CreateKeyDocument sampleLib (freshData "not a certificate") =
      (freshData "not a certificate", errInvalidPEM) :=
  ⟨sampleLib_pem_needs_marker,
   ((create_invalid_pem_iff sampleLib (freshData "")).2.1 sampleLib_pem_needs_marker).1 rfl,
   ((create_invalid_pem_iff sampleLib (freshData "not a certificate")).2.1
      sampleLib_pem_needs_marker).2 (by decide)⟩

/-! ## Atomicity -/

/-- C6: every call either returns exactly one error diagnostic and leaves the
resource data as they were, or returns no diagnostics and writes the ID and
`document`; so a call that returns a diagnostic has written nothing, and a call
that changed the ID or `document` returned no diagnostics. -/
theorem create_atomic (L : GoLib) (d : ResourceData) :
    ((∃ msg, (CreateKeyDocument L d).2 = diag.FromErr msg ∧ (CreateKeyDocument L d).1 = d) ∨
     (∃ kid json, (CreateKeyDocument L d).2 = [] ∧
        (CreateKeyDocument L d).1 = (d.SetId kid).SetDocument json)) ∧
    ((CreateKeyDocument L d).2 ≠ [] → (CreateKeyDocument L d).1 = d) ∧
    ((CreateKeyDocument L d).1.id ≠ d.id ∨ (CreateKeyDocument L d).1.document ≠ d.document →
      (CreateKeyDocument L d).2 = []) := by
  have h1 : (∃ msg, (CreateKeyDocument L d).2 = diag.FromErr msg ∧
        (CreateKeyDocument L d).1 = d) ∨
      (∃ kid json, (CreateKeyDocument L d).2 = [] ∧
        (CreateKeyDocument L d).1 = (d.SetId kid).SetDocument json) := by
    rcases create_outcome L d with ⟨_, hres⟩ | ⟨_, e, _, _, hres⟩ | ⟨_, _, _, _, _, hres⟩ |
      ⟨_, _, _, e, _, _, _, _, hres⟩ | ⟨_, _, _, _, e, _, _, _, _, _, hres⟩ |
      ⟨_, _, _, der, json, _, _, _, _, _, hres⟩
    · exact Or.inl ⟨_, by rw [hres]; rfl, by rw [hres]⟩
    · exact Or.inl ⟨_, by rw [hres], by rw [hres]⟩
    · exact Or.inl ⟨_, by rw [hres]; rfl, by rw [hres]⟩
    · exact Or.inl ⟨_, by rw [hres], by rw [hres]⟩
    · exact Or.inl ⟨_, by rw [hres], by rw [hres]⟩
    · exact Or.inr ⟨rawURLEncode (L.sha256 der), json, by rw [hres], by rw [hres]; rfl⟩
  refine ⟨h1, ?_, ?_⟩
  · intro hne
    rcases h1 with ⟨_, _, hd⟩ | ⟨_, _, hnil, _⟩
    · exact hd
    · exact absurd hnil hne
  · intro hch
    rcases h1 with ⟨_, _, hd⟩ | ⟨_, _, hnil, _⟩
    · rw [hd] at hch
      simp at hch
    · exact hnil

theorem create_atomic_witness :
    (CreateKeyDocument sampleLib (freshData samplePemEd)).1 = freshData samplePemEd ∧
    (CreateKeyDocument sampleLib (freshData samplePemA)).2 = [] :=
  ⟨(create_atomic sampleLib (freshData samplePemEd)).2.1 (by decide),
   (create_atomic sampleLib (freshData samplePemA)).2.2 (Or.inl (by decide))⟩

/-! ## The PEM label -/

/-- After a block is found only its payload bytes are used: two calls whose
blocks have the same payload return the same diagnostics, and either both
leave the resource data alone or both write the same ID and document. -/
theorem create_depends_on_payload (L : GoLib) (d1 d2 : ResourceData) (b1 b2 : Block)
    (h1 : L.pemDecode d1.cert_pem = some b1) (h2 : L.pemDecode d2.cert_pem = some b2)
    (hbytes : b1.Bytes = b2.Bytes) :
    (CreateKeyDocument L d1).2 = (CreateKeyDocument L d2).2 ∧
    (((CreateKeyDocument L d1).1 = d1 ∧ (CreateKeyDocument L d2).1 = d2 ∧
        (CreateKeyDocument L d1).2 ≠ []) ∨
      ((CreateKeyDocument L d1).2 = [] ∧
        (CreateKeyDocument L d1).1.id = (CreateKeyDocument L d2).1.id ∧
        (CreateKeyDocument L d1).1.document = (CreateKeyDocument L d2).1.document ∧
        (CreateKeyDocument L d1).1.document ≠ none)) := by
  cases hc : L.parseCertificate b1.Bytes with
  | error e =>
    have hc2 : L.parseCertificate b2.Bytes = .error e := by rw [← hbytes]; exact hc
    rw [create_of_parse_error L d1 b1 e h1 hc, create_of_parse_error L d2 b2 e h2 hc2]
    exact ⟨rfl, Or.inl ⟨rfl, rfl, by simp [diag.FromErr]⟩⟩
  | ok c =>
    have hc2 : L.parseCertificate b2.Bytes = .ok c := by rw [← hbytes]; exact hc
    cases hr : c.PublicKey.isRSA with
    | false =>
      rw [create_of_not_rsa L d1 b1 c h1 hc hr, create_of_not_rsa L d2 b2 c h2 hc2 hr]
      exact ⟨rfl, Or.inl ⟨rfl, rfl, by simp [errUnsupportedKeyType, diag.FromErr]⟩⟩
    | true =>
      obtain ⟨k, hk⟩ : ∃ k, c.PublicKey = .rsa k := by
        cases hp : c.PublicKey with
        | rsa k => exact ⟨k, rfl⟩
        | ecdsa _ _ _ => simp [hp, PublicKey.isRSA] at hr
        | ed25519 _ => simp [hp, PublicKey.isRSA] at hr
        | other _ => simp [hp, PublicKey.isRSA] at hr
      rw [create_of_rsa L d1 b1 c k h1 hc hk, create_of_rsa L d2 b2 c k h2 hc2 hk]
      cases keyIDFromPublicKey L (.rsa k) with
      | error e => exact ⟨rfl, Or.inl ⟨rfl, rfl, by simp [diag.FromErr]⟩⟩
      | ok kid =>
        simp only []
        cases MarshalIndent L (singleKeySet k kid) with
        | error e => exact ⟨rfl, Or.inl ⟨rfl, rfl, by simp [diag.FromErr]⟩⟩
        | ok json => exact ⟨rfl, Or.inr ⟨rfl, rfl, rfl, by simp⟩⟩

/-- C8: the type label and headers of the PEM block do not influence the
result: for two inputs whose first blocks have the same payload bytes but
different labels or headers, `CreateKeyDocument` returns the same diagnostics
and, when it writes, writes the same ID and the same `document`; so if the
call succeeds under one label it succeeds under the other. -/
theorem create_ignores_pem_label (L : GoLib) (d1 d2 : ResourceData) (b1 b2 : Block)
    (h1 : L.pemDecode d1.cert_pem = some b1) (h2 : L.pemDecode d2.cert_pem = some b2)
    (hbytes : b1.Bytes = b2.Bytes)
    (_hlabel : b1.Type_ ≠ b2.Type_ ∨ b1.Headers ≠ b2.Headers) :
    (CreateKeyDocument L d1).2 = (CreateKeyDocument L d2).2 ∧
    (((CreateKeyDocument L d1).1 = d1 ∧ (CreateKeyDocument L d2).1 = d2 ∧
        (CreateKeyDocument L d1).2 ≠ []) ∨
      ((CreateKeyDocument L d1).2 = [] ∧
        (CreateKeyDocument L d1).1.id = (CreateKeyDocument L d2).1.id ∧
        (CreateKeyDocument L d1).1.document = (CreateKeyDocument L d2).1.document ∧
        (CreateKeyDocument L d1).1.document ≠ none)) ∧
    ((CreateKeyDocument L d1).2 = [] → (CreateKeyDocument L d2).2 = []) := by
  obtain ⟨hd, hw⟩ := create_depends_on_payload L d1 d2 b1 b2 h1 h2 hbytes
  exact ⟨hd, hw, fun h => by rw [← hd]; exact h⟩

theorem create_ignores_pem_label_witness :
    (CreateKeyDocument sampleLib (freshData samplePemA)).2 = [] ∧
    (CreateKeyDocument sampleLib (freshData samplePemA2)).2 = [] ∧
    (CreateKeyDocument sampleLib (freshData samplePemA)).2 =
      (CreateKeyDocument sampleLib (freshData samplePemA2)).2 :=
  ⟨by decide,
   (create_ignores_pem_label sampleLib (freshData samplePemA) (freshData samplePemA2)
      { Type_ := "CERTIFICATE", Headers := [], Bytes := [1, 2, 3] }
      { Type_ := "PUBLIC KEY", Headers := [], Bytes := [1, 2, 3] }
      (by decide) (by decide) rfl (Or.inl (by decide))).2.2 (by decide),
   (create_ignores_pem_label sampleLib (freshData samplePemA) (freshData samplePemA2)
      { Type_ := "CERTIFICATE", Headers := [], Bytes := [1, 2, 3] }
      { Type_ := "PUBLIC KEY", Headers := [], Bytes := [1, 2, 3] }
      (by decide) (by decide) rfl (Or.inl (by decide))).1⟩

/-! ## The two switches -/

/-- C10: the default branch of the algorithm-selection switch is unreachable:
no diagnostic of `CreateKeyDocument` carries the message "invalid public key
type ..., must be *rsa.PublicKey" that this branch builds, and for every key
that passes the first switch, an RSA key with any modulus, the second switch
selects RS256. -/
theorem second_switch_default_unreachable (L : GoLib) (d : ResourceData) :
    (∀ dg ∈ (CreateKeyDocument L d).2, ∀ T, dg.Summary ≠ invalidKeyTypeMessage T) ∧
    (∀ key : PublicKey, key.isRSA = false →
      selectAlgorithm key = .error (invalidKeyTypeMessage key.goType)) ∧
    (∀ key : PublicKey, key.isRSA = true → selectAlgorithm key = .ok "RS256") ∧
    (∀ k : RSAPublicKey, selectAlgorithm (.rsa k) = .ok "RS256") ∧
    (∀ b c, L.pemDecode d.cert_pem = some b → L.parseCertificate b.Bytes = .ok c →
      c.PublicKey.isRSA = true → selectAlgorithm c.PublicKey = .ok "RS256") := by
  have hsel : ∀ key : PublicKey, key.isRSA = true → selectAlgorithm key = .ok "RS256" := by
    intro key hk
    cases key with
    | rsa k => rfl
    | ecdsa _ _ _ => simp [PublicKey.isRSA] at hk
    | ed25519 _ => simp [PublicKey.isRSA] at hk
    | other _ => simp [PublicKey.isRSA] at hk
  refine ⟨?_, ?_, hsel, fun k => rfl, fun b c _ _ hk => hsel _ hk⟩
  · intro dg hdg T hT
    have hdata := congrArg String.data hT
    rcases create_outcome L d with ⟨_, hres⟩ | ⟨_, e, _, _, hres⟩ | ⟨_, _, _, _, _, hres⟩ |
      ⟨_, _, _, e, _, _, _, _, hres⟩ | ⟨_, _, _, _, e, _, _, _, _, _, hres⟩ |
      ⟨_, _, _, _, _, _, _, _, _, _, hres⟩
    all_goals
      rw [hres] at hdg
      simp [errInvalidPEM, errUnsupportedKeyType, diag.FromErr] at hdg
      try
        rw [hdg] at hdata
        simp [invalidKeyTypeMessage, String.data_append] at hdata
  · intro key hk
    cases key with
    | rsa k => simp [PublicKey.isRSA] at hk
    | ecdsa _ _ _ => rfl
    | ed25519 _ => rfl
    | other _ => rfl

theorem second_switch_default_unreachable_witness :
    selectAlgorithm sampleCertA.PublicKey = .ok "RS256" ∧
    ∀ dg ∈ (CreateKeyDocument sampleLib (freshData samplePemEd)).2,
      ∀ T, dg.Summary ≠ invalidKeyTypeMessage T :=
  ⟨(second_switch_default_unreachable sampleLib (freshData samplePemA)).2.2.2.2
      { Type_ := "CERTIFICATE", Headers := [], Bytes := [1, 2, 3] } sampleCertA
      (by decide) rfl (by decide),
   (second_switch_default_unreachable sampleLib (freshData samplePemEd)).1⟩

/-! ## Base64url and big-endian integers -/

theorem rawURLEncodeChars_length : ∀ bs : List Byte,
    (rawURLEncodeChars bs).length = (4 * bs.length + 2) / 3
  | [] => rfl
  | [_] => by simp [rawURLEncodeChars]
  | [_, _] => by simp [rawURLEncodeChars]
  | _ :: _ :: _ :: rest => by
    simp only [rawURLEncodeChars, List.length_cons, rawURLEncodeChars_length rest]
    omega

theorem encodeURL_safe : ∀ j : Fin 64, isURLSafeChar (encodeURL.getD j.val 'A') = true := by
  decide

theorem encChar_safe (i : Nat) : isURLSafeChar (encChar i) = true :=
  encodeURL_safe ⟨i % 64, Nat.mod_lt _ (by decide)⟩

theorem rawURLEncodeChars_safe : ∀ (bs : List Byte) (c : Char),
    c ∈ rawURLEncodeChars bs → isURLSafeChar c = true
  | [], c, h => by simp [rawURLEncodeChars] at h
  | [_], c, h => by
    simp only [rawURLEncodeChars, List.mem_cons, List.mem_singleton, List.not_mem_nil, or_false] at h
    rcases h with h | h <;> (rw [h]; exact encChar_safe _)
  | [_, _], c, h => by
    simp only [rawURLEncodeChars, List.mem_cons, List.mem_singleton, List.not_mem_nil, or_false] at h
    rcases h with h | h | h <;> (rw [h]; exact encChar_safe _)
  | _ :: _ :: _ :: rest, c, h => by
    simp only [rawURLEncodeChars, List.mem_cons] at h
    rcases h with h | h | h | h | h
    · rw [h]; exact encChar_safe _
    · rw [h]; exact encChar_safe _
    · rw [h]; exact encChar_safe _
    · rw [h]; exact encChar_safe _
    · exact rawURLEncodeChars_safe rest c h

theorem decChar_encodeURL : ∀ j : Fin 64, decChar (encodeURL.getD j.val 'A') = some j.val := by
  decide

theorem decChar_encChar (i : Nat) : decChar (encChar i) = some (i % 64) :=
  decChar_encodeURL ⟨i % 64, Nat.mod_lt _ (by decide)⟩

theorem rawURLDecode_encode : ∀ bs : List Nat, (∀ x ∈ bs, x < 256) →
    rawURLDecodeChars (rawURLEncodeChars bs) = some bs
  | [], _ => rfl
  | [a], h => by
    have ha : a < 256 := h a (by simp)
    simp only [rawURLEncodeChars, rawURLDecodeChars, decChar_encChar, Option.bind_eq_bind,
      Option.some_bind, Option.pure_def, Option.some.injEq, List.cons.injEq, and_true]
    unfold Byte
    omega
  | [a, b], h => by
    have ha : a < 256 := h a (by simp)
    have hb : b < 256 := h b (by simp)
    simp only [rawURLEncodeChars, rawURLDecodeChars, decChar_encChar, Option.bind_eq_bind,
      Option.some_bind, Option.pure_def, Option.some.injEq, List.cons.injEq, and_true]
    unfold Byte
    omega
  | a :: b :: c :: rest, h => by
    have ha : a < 256 := h a (by simp)
    have hb : b < 256 := h b (by simp)
    have hc : c < 256 := h c (by simp)
    have hrest := rawURLDecode_encode rest (fun x hx => h x (by simp [hx]))
    simp only [rawURLEncodeChars, rawURLDecodeChars, decChar_encChar, Option.bind_eq_bind,
      Option.some_bind, Option.pure_def, Option.some.injEq, List.cons.injEq, and_true, hrest]
    unfold Byte
    omega

theorem bigEndianNat_append (l : List Nat) (x : Nat) :
    bigEndianNat (l ++ [x]) = bigEndianNat l * 256 + x := by
  simp [bigEndianNat, List.foldl_append]

theorem bigEndianNat_reverse_cons (x : Nat) (l : List Nat) :
    bigEndianNat (x :: l).reverse = bigEndianNat l.reverse * 256 + x := by
  rw [List.reverse_cons, bigEndianNat_append]

theorem bytesLE_value : ∀ (fuel n : Nat), n ≤ fuel →
    bigEndianNat (bytesLE fuel n).reverse = n
  | 0, n, h => by
    have : n = 0 := by omega
    subst this
    rfl
  | fuel + 1, n, h => by
    unfold bytesLE
    by_cases hn : n = 0
    · subst hn
      rfl
    · rw [if_neg hn, bigEndianNat_reverse_cons, bytesLE_value fuel (n / 256) (by omega)]
      omega

theorem bytesLE_lt : ∀ (fuel n x : Nat), x ∈ bytesLE fuel n → x < 256
  | 0, n, x, h => by simp [bytesLE] at h
  | fuel + 1, n, x, h => by
    unfold bytesLE at h
    by_cases hn : n = 0
    · simp [hn] at h
    · rw [if_neg hn, List.mem_cons] at h
      rcases h with h | h
      · rw [h]
        exact Nat.mod_lt _ (by decide)
      · exact bytesLE_lt fuel (n / 256) x h

theorem bigEndianNat_bigIntBytes (n : Nat) : bigEndianNat (bigIntBytes n) = n :=
  bytesLE_value n n (Nat.le_refl n)

theorem bigIntBytes_lt (n x : Nat) (h : x ∈ bigIntBytes n) : x < 256 :=
  bytesLE_lt n n x (by simpa [bigIntBytes] using h)

theorem bigEndianNat_trimLeftZero : ∀ l : List Nat,
    bigEndianNat (trimLeftZero l) = bigEndianNat l
  | [] => rfl
  | x :: l => by
    by_cases hx : x = 0
    · subst hx
      have h1 : trimLeftZero (0 :: l) = trimLeftZero l := by
        simp [trimLeftZero]
      rw [h1, bigEndianNat_trimLeftZero l]
      simp [bigEndianNat]
    · have h1 : trimLeftZero (x :: l) = x :: l := by
        simp [trimLeftZero, hx]
      rw [h1]

theorem bigEndianNat_putUint64BE (v : Nat) (h : v < 2 ^ 64) :
    bigEndianNat (putUint64BE v) = v := by
  simp only [bigEndianNat, putUint64BE, List.foldl_cons, List.foldl_nil]
  unfold Byte
  omega

theorem putUint64BE_lt (v x : Nat) (h : x ∈ putUint64BE v) : x < 256 := by
  simp only [putUint64BE, List.mem_cons, List.mem_singleton, List.not_mem_nil, or_false] at h
  rcases h with h | h | h | h | h | h | h | h <;> (rw [h]; exact Nat.mod_lt _ (by decide))

theorem bigEndianNat_newBufferFromInt (e : Nat) (h : e < 2 ^ 64) :
    bigEndianNat (newBufferFromInt e) = e := by
  rw [newBufferFromInt, bigEndianNat_trimLeftZero, Nat.mod_eq_of_lt h,
    bigEndianNat_putUint64BE e h]

theorem newBufferFromInt_lt (e x : Nat) (h : x ∈ newBufferFromInt e) : x < 256 := by
  unfold newBufferFromInt trimLeftZero at h
  exact putUint64BE_lt _ x (List.dropWhile_subset _ h)

theorem rawURLDecode_rawURLEncode (bs : List Nat) (h : ∀ x ∈ bs, x < 256) :
    rawURLDecode (rawURLEncode bs) = some bs :=
  rawURLDecode_encode bs h


theorem marshalIndent_singleKeySet (L : GoLib) (k : RSAPublicKey) (kid : String) :
    MarshalIndent L (singleKeySet k kid) =
      .ok (L.jsonIndent [{ fromRsaPublicKey k with Kid := kid, Alg := "RS256", Use := "sig" }]) := by
  rfl

/-! ## The key ID as text -/

/-- C9: a key ID returned by `keyIDFromPublicKey` is exactly 43 characters long,
every character is in the URL-safe base64 alphabet, and none is the padding
'=' or one of '+' and '/'. -/
theorem keyID_shape (L : GoLib) (publicKey : PublicKey) (keyID : String)
    (h : keyIDFromPublicKey L publicKey = .ok keyID) :
    keyID.length = 43 ∧
    (∀ c ∈ keyID.data, isURLSafeChar c = true) ∧
    (∀ c ∈ keyID.data, c ≠ '=' ∧ c ≠ '+' ∧ c ≠ '/') := by
  unfold keyIDFromPublicKey at h
  cases hm : L.marshalPKIXPublicKey publicKey with
  | error e => simp [hm] at h
  | ok der =>
    simp only [hm, Except.ok.injEq] at h
    subst h
    have hsafe : ∀ c ∈ (rawURLEncode (L.sha256 der)).data, isURLSafeChar c = true :=
      fun c hc => rawURLEncodeChars_safe (L.sha256 der) c hc
    refine ⟨?_, hsafe, ?_⟩
    · show (rawURLEncodeChars (L.sha256 der)).length = 43
      rw [rawURLEncodeChars_length, L.sha256_size]
    · intro c hc
      have hs := hsafe c hc
      refine ⟨?_, ?_, ?_⟩ <;>
      · intro heq
        rw [heq] at hs
        revert hs
        decide

theorem keyID_shape_witness :
    keyIDFromPublicKey sampleLib (.rsa sampleKey) =
      .ok "3-Dh4uPk5ebn6Onq6-zt7u_w8fLz9PX29_j5-vv8_f4" ∧
    "3-Dh4uPk5ebn6Onq6-zt7u_w8fLz9PX29_j5-vv8_f4".length = 43 :=
  ⟨rfl, (keyID_shape sampleLib (.rsa sampleKey) _ rfl).1⟩

/-! ## Round trip of the key material -/

/-- C7: when `CreateKeyDocument` succeeds on an RSA key with modulus `N` and
exponent `E`, `document` is the JSON text of one key record whose members `n`
and `e`, decoded as unpadded URL-safe base64 and read as big-endian unsigned
integers, give back `N` and `E`. -/
theorem create_document_key_roundtrip (L : GoLib) (d : ResourceData)
    (hok : (CreateKeyDocument L d).2 = []) :
    ∃ b c k raw n e, L.pemDecode d.cert_pem = some b ∧
      L.parseCertificate b.Bytes = .ok c ∧ c.PublicKey = .rsa k ∧
      JSONWebKey.MarshalJSON L (JSONWebKey.mk c.PublicKey (CreateKeyDocument L d).1.id
        "RS256" "sig") = .ok raw ∧
      (CreateKeyDocument L d).1.document = some (L.jsonIndent [raw]) ∧
      raw.Kty = "RSA" ∧ raw.N = some n ∧ raw.E = some e ∧
      (rawURLDecode n).map bigEndianNat = some k.N ∧
      (rawURLDecode e).map bigEndianNat = some k.E := by
  obtain ⟨b, c, k, der, json, hb, hc, hk, _, hj, hr⟩ := create_success L d hok
  rw [marshalIndent_singleKeySet] at hj
  cases hj
  refine ⟨b, c, k,
    rawJSONWebKey.mk "sig" "RSA" (rawURLEncode (L.sha256 der)) "" "RS256" none none
      (some (rawURLEncode (bigIntBytes k.N))) (some (rawURLEncode (newBufferFromInt k.E))),
    rawURLEncode (bigIntBytes k.N), rawURLEncode (newBufferFromInt k.E),
    hb, hc, hk, ?_, ?_, rfl, rfl, rfl, ?_, ?_⟩
  · rw [hr, hk]
    rfl
  · rw [hr]
    rfl
  · rw [rawURLDecode_rawURLEncode _ (bigIntBytes_lt k.N), Option.map_some',
      bigEndianNat_bigIntBytes]
  · rw [rawURLDecode_rawURLEncode _ (newBufferFromInt_lt k.E), Option.map_some',
      bigEndianNat_newBufferFromInt k.E (Nat.lt_trans k.E_lt (by decide))]

theorem create_document_key_roundtrip_witness :
    (CreateKeyDocument sampleLib (freshData samplePemA)).2 = [] ∧
    ∃ b c k raw n e, sampleLib.pemDecode (freshData samplePemA).cert_pem = some b ∧
      sampleLib.parseCertificate b.Bytes = .ok c ∧ c.PublicKey = .rsa k ∧
      JSONWebKey.MarshalJSON sampleLib (JSONWebKey.mk c.PublicKey
        (CreateKeyDocument sampleLib (freshData samplePemA)).1.id "RS256" "sig") = .ok raw ∧
      (CreateKeyDocument sampleLib (freshData samplePemA)).1.document =
        some (sampleLib.jsonIndent [raw]) ∧
      raw.Kty = "RSA" ∧ raw.N = some n ∧ raw.E = some e ∧
      (rawURLDecode n).map bigEndianNat = some k.N ∧
      (rawURLDecode e).map bigEndianNat = some k.E :=
  ⟨by decide, create_document_key_roundtrip sampleLib (freshData samplePemA) (by decide)⟩

end EksOidc
